import Mathlib

/-!
Shallow embedding of the impulse-rs 2D rigid-body physics engine
(src/types.rs, src/operations.rs, src/body.rs, src/collision.rs,
src/scene.rs).  Rust `f32` (`N32`) values are modelled as real numbers;
`Vec<T>` as `List T`; fallible or panicking paths as `Option`.
-/

noncomputable section

/-! ## Math primitives (types.rs, operations.rs) -/

/-- 2D vector, models `cgmath::Vector2<Real>`. -/
structure Vec2 where
  x : ℝ
  y : ℝ

instance : Inhabited Vec2 := ⟨⟨0, 0⟩⟩

def Vec2.add (a b : Vec2) : Vec2 := ⟨a.x + b.x, a.y + b.y⟩

def Vec2.sub (a b : Vec2) : Vec2 := ⟨a.x - b.x, a.y - b.y⟩

def Vec2.neg (a : Vec2) : Vec2 := ⟨-a.x, -a.y⟩

def Vec2.smul (r : ℝ) (v : Vec2) : Vec2 := ⟨r * v.x, r * v.y⟩

instance : Add Vec2 := ⟨Vec2.add⟩

instance : Sub Vec2 := ⟨Vec2.sub⟩

instance : Neg Vec2 := ⟨Vec2.neg⟩

instance : SMul ℝ Vec2 := ⟨Vec2.smul⟩

/-- `dot` from cgmath. -/
def dot (a b : Vec2) : ℝ := a.x * b.x + a.y * b.y

/-- `cross_real_vector` (operations.rs). -/
def crossRealVector (a : ℝ) (v : Vec2) : Vec2 := ⟨-a * v.y, a * v.x⟩

/-- `cross_vectors` (operations.rs). -/
def crossVectors (a b : Vec2) : ℝ := a.x * b.y - a.y * b.x

/-- `len_sqr` (operations.rs). -/
def lenSqr (v : Vec2) : ℝ := v.x ^ 2 + v.y ^ 2

/-- `dist_sqr` (operations.rs). -/
def distSqr (a b : Vec2) : ℝ := dot (a - b) (a - b)

/-- `cgmath` vector magnitude: `sqrt (dot v v)`. -/
def magnitude (v : Vec2) : ℝ := Real.sqrt (dot v v)

/-- `cgmath` normalize: `v * (1 / magnitude v)`. -/
def Vec2.normalize (v : Vec2) : Vec2 := (1 / magnitude v) • v

/-- `EPSILON` (scene.rs). -/
def EPSILON : ℝ := 1 / 10000

/-- `GRAVITY` (scene.rs), as the vector `(0.0, 500.0)`. -/
def GRAVITY : Vec2 := ⟨0, 500⟩

/-- `FRAME_TIME` (scene.rs). -/
def FRAME_TIME : ℝ := 1 / 60

/-- `float_cmp` (operations.rs): `(a - b).abs() <= EPSILON`. -/
def floatCmp (a b : ℝ) : Prop := |a - b| ≤ EPSILON

instance (a b : ℝ) : Decidable (floatCmp a b) :=
  inferInstanceAs (Decidable (|a - b| ≤ EPSILON))

/-- 2x2 matrix, models `cgmath::Matrix2` (column major:
`Matrix2::new(c0r0, c0r1, c1r0, c1r1)`). -/
structure Mat2 where
  c0r0 : ℝ
  c0r1 : ℝ
  c1r0 : ℝ
  c1r1 : ℝ

def mat2New (a b c d : ℝ) : Mat2 := ⟨a, b, c, d⟩

def Mat2.mulVec (m : Mat2) (v : Vec2) : Vec2 :=
  ⟨m.c0r0 * v.x + m.c1r0 * v.y, m.c0r1 * v.x + m.c1r1 * v.y⟩

def Mat2.transpose (m : Mat2) : Mat2 := ⟨m.c0r0, m.c1r0, m.c0r1, m.c1r1⟩

/-- `PI` (types.rs), `std::f32::consts::PI` modelled as the real `π`. -/
def PI : ℝ := Real.pi

/-- `std::f32::MIN`, the most negative finite `f32`: `-(2^128 - 2^104)`. -/
def f32MIN : ℝ := -((2 : ℝ) ^ 128 - 2 ^ 104)

/-! ## Shapes and bodies (body.rs) -/

structure PolygonShapeVertex where
  position : Vec2
  normal : Vec2

instance : Inhabited PolygonShapeVertex := ⟨⟨⟨0, 0⟩, ⟨0, 0⟩⟩⟩

inductive Shape where
  | circle (radius : ℝ)
  | polygon (orientation : Mat2) (vertices : List PolygonShapeVertex)

/-- `Shape::rect` (body.rs). -/
def Shape.rect (h : Vec2) : Shape :=
  Shape.polygon (mat2New 1 0 0 1)
    [ ⟨⟨-h.x, -h.y⟩, ⟨0, -1⟩ ⟩,
      ⟨⟨ h.x, -h.y⟩, ⟨1,  0⟩ ⟩,
      ⟨⟨ h.x,  h.y⟩, ⟨0,  1⟩ ⟩,
      ⟨⟨-h.x,  h.y⟩, ⟨-1, 0⟩ ⟩ ]

structure MassData where
  moment_inertia : ℝ
  inv_inertia : ℝ
  mass : ℝ
  inv_mass : ℝ

/-- `slice::chunks(2)`: splits a list into consecutive disjoint chunks of
two; the Rust loop body reads `p1 = edge[0]` and
`p2 = if edge.len() == 2 { edge[1] } else { edge[0] }`, so a trailing
singleton chunk yields the pair `(a, a)`. -/
def chunks2 {α : Type} : List α → List (α × α)
  | [] => []
  | [a] => [(a, a)]
  | a :: b :: rest => (a, b) :: chunks2 rest

/-- Accumulator state of the polygon loop in `compute_mass` (body.rs):
centroid numerator `c`, signed `area`, second-moment integral `i`. -/
structure PolyAcc where
  c : Vec2
  area : ℝ
  i : ℝ

/-- One iteration of the polygon loop in `compute_mass` (body.rs). -/
def polyAccStep (acc : PolyAcc) (e : Vec2 × Vec2) : PolyAcc :=
  let p1 := e.1
  let p2 := e.2
  let d := crossVectors p1 p2
  let triangle_area := (1 / 2) * d
  let intx2 := p1.x * p1.x + p2.x * p1.x + p2.x * p2.x
  let inty2 := p1.y * p1.y + p2.y * p1.y + p2.y * p2.y
  { c := acc.c + (triangle_area * (1 / 3)) • (p1 + p2),
    area := acc.area + triangle_area,
    i := acc.i + ((1 / 4) * (1 / 3) * d) * (intx2 + inty2) }

def polyAcc (ps : List (Vec2 × Vec2)) : PolyAcc :=
  ps.foldl polyAccStep ⟨⟨0, 0⟩, 0, 0⟩

/-- `compute_mass` (body.rs).  Returns the mass data together with the
(possibly recentred) shape, since the Rust function mutates the shape's
vertices in place. -/
def computeMass : Shape → ℝ → MassData × Shape
  | Shape.circle radius, density =>
    let m := PI * radius * radius * density
    let i := m * radius * radius
    (⟨i, if i ≠ 0 then 1 / i else 0, m, if m ≠ 0 then 1 / m else 0⟩,
     Shape.circle radius)
  | Shape.polygon orientation vertices, density =>
    let acc := polyAcc (chunks2 (vertices.map (fun v => v.position)))
    let c := (1 / acc.area) • acc.c
    let newVertices := vertices.map (fun v => { v with position := v.position - c })
    let m := density * acc.area
    let i := acc.i * density
    (⟨m, if m ≠ 0 then 1 / m else 0, i, if i ≠ 0 then 1 / i else 0⟩,
     Shape.polygon orientation newVertices)

structure Body where
  shape : Shape
  position : Vec2
  orient : ℝ
  velocity : Vec2
  angular_velocity : ℝ
  torque : ℝ
  force : Vec2
  static_friction : ℝ
  dynamic_friction : ℝ
  restitution : ℝ
  moment_inertia : ℝ
  inv_inertia : ℝ
  mass : ℝ
  inv_mass : ℝ

instance : Inhabited Body :=
  ⟨⟨Shape.circle 0, ⟨0, 0⟩, 0, ⟨0, 0⟩, 0, 0, ⟨0, 0⟩, 0, 0, 0, 0, 0, 0, 0⟩⟩

/-- `Body::with_density` (body.rs). -/
def Body.withDensity (shape : Shape) (position : Vec2) (density : ℝ) : Body :=
  let md := computeMass shape density
  { shape := md.2
    position := position
    orient := 0
    velocity := ⟨0, 0⟩
    angular_velocity := 0
    torque := 0
    force := ⟨0, 0⟩
    static_friction := 1 / 2
    dynamic_friction := 3 / 10
    restitution := 1 / 5
    moment_inertia := md.1.moment_inertia
    inv_inertia := md.1.inv_inertia
    mass := md.1.mass
    inv_mass := md.1.inv_mass }

/-- `Body::apply_force` (body.rs). -/
def Body.applyForce (b : Body) (f : Vec2) : Body := { b with force := b.force + f }

/-- `Body::apply_impulse` (body.rs). -/
def Body.applyImpulse (b : Body) (impulse contact_vector : Vec2) : Body :=
  { b with
    velocity := b.velocity + b.inv_mass • impulse,
    angular_velocity :=
      b.angular_velocity + b.inv_inertia * crossVectors contact_vector impulse }

/-- `Body::set_static` (body.rs). -/
def Body.setStatic (b : Body) : Body :=
  { b with moment_inertia := 0, inv_inertia := 0, mass := 0, inv_mass := 0 }

/-- The local rotation-matrix builder inside `Body::set_orient` (body.rs):
`Mat2::new(cos θ, -sin θ, sin θ, cos θ)`. -/
def mat2Rot (radians : ℝ) : Mat2 :=
  mat2New (Real.cos radians) (-Real.sin radians) (Real.sin radians) (Real.cos radians)

/-- `Body::set_orient` (body.rs): stores the angle; for polygons rebuilds the
orientation matrix from the negated angle. -/
def Body.setOrient (b : Body) (radians : ℝ) : Body :=
  let b1 : Body := { b with orient := radians }
  match b1.shape with
  | Shape.circle _ => b1
  | Shape.polygon _ verts => { b1 with shape := Shape.polygon (mat2Rot (-radians)) verts }

/-- `Body::integrate_forces` (body.rs): half-step force integration, skipped
for static bodies. -/
def Body.integrateForces (b : Body) (delta : ℝ) : Body :=
  if b.inv_mass = 0 then b
  else
    { b with
      velocity := b.velocity + (delta / 2) • (b.inv_mass • b.force + GRAVITY),
      angular_velocity := b.angular_velocity + b.torque * b.inv_inertia * (delta / 2) }

/-- `Body::integrate_velocity` (body.rs): advances position and orientation,
then performs the second half-step force integration. -/
def Body.integrateVelocity (b : Body) (delta : ℝ) : Body :=
  if b.inv_mass = 0 then b
  else
    let b1 : Body := { b with position := b.position + delta • b.velocity }
    let b2 := b1.setOrient (b1.orient + b1.angular_velocity * delta)
    b2.integrateForces delta

/-! ## Contact manifolds and narrow phase (collision.rs) -/

structure ManifoldData where
  pair : ℕ × ℕ
  penetration : ℝ
  normal : Vec2
  contacts : List Vec2

structure Manifold where
  pair : ℕ × ℕ
  penetration : ℝ
  normal : Vec2
  contacts : List Vec2
  e : ℝ
  df : ℝ
  sf : ℝ

/-- The relative velocity at a contact point computed inside
`ManifoldData::initialize` (collision.rs). -/
def relVelAt (body_a body_b : Body) (contact : Vec2) : Vec2 :=
  let ra := contact - body_a.position
  let rb := contact - body_b.position
  body_b.velocity + crossRealVector body_b.angular_velocity rb -
    body_a.velocity - crossRealVector body_a.angular_velocity ra

/-- The per-contact resting test inside `ManifoldData::initialize`
(collision.rs): `len_sqr(rv) < len_sqr(gravity * delta) + EPSILON`. -/
def restingContact (delta : ℝ) (body_a body_b : Body) (contact : Vec2) : Prop :=
  lenSqr (relVelAt body_a body_b contact) <
    lenSqr ⟨GRAVITY.x * delta, GRAVITY.y * delta⟩ + EPSILON

instance (delta : ℝ) (a b : Body) (c : Vec2) : Decidable (restingContact delta a b c) :=
  inferInstanceAs (Decidable (_ < _))

/-- `ManifoldData::initialize` (collision.rs). -/
def initManifold (md : ManifoldData) (delta : ℝ) (body_a body_b : Body) : Manifold :=
  let e0 := min body_a.restitution body_b.restitution
  let sf := Real.sqrt (body_a.static_friction ^ 2)
  let df := Real.sqrt (body_a.dynamic_friction ^ 2)
  let e := md.contacts.foldl
    (fun e contact => if restingContact delta body_a body_b contact then 0 else e) e0
  ⟨md.pair, md.penetration, md.normal, md.contacts, e, df, sf⟩

/-- `circle_circle` (collision.rs). -/
def circleCircle (i_a : ℕ) (radius_a : ℝ) (body_a : Body)
    (i_b : ℕ) (radius_b : ℝ) (body_b : Body) : Option ManifoldData :=
  let normal := body_b.position - body_a.position
  let dist_sqr := lenSqr normal
  let radius := radius_a + radius_b
  if dist_sqr ≥ radius ^ 2 then none
  else
    let distance := Real.sqrt dist_sqr
    if distance = 0 then
      some ⟨(i_a, i_b), radius_a, ⟨1, 0⟩, [body_a.position]⟩
    else
      let nod := (1 / distance) • normal
      some ⟨(i_a, i_b), radius - distance, nod, [radius_a • nod + body_a.position]⟩

/-- The face-search loop of `circle_polygon` (collision.rs): returns `none` on
the early `return None` (some face's signed distance exceeds the radius),
otherwise the maximal signed separation with its face index. -/
def sepLoop (center : Vec2) (radius_a : ℝ) :
    List (ℕ × PolygonShapeVertex) → ℝ → ℕ → Option (ℝ × ℕ)
  | [], sep, fi => some (sep, fi)
  | (i, v) :: rest, sep, fi =>
    let s := dot v.normal (center - v.position)
    if s > radius_a then none
    else if s > sep then sepLoop center radius_a rest s i
    else sepLoop center radius_a rest sep fi

/-- `circle_polygon` (collision.rs).  Out-of-range vertex indexing (possible
only for an empty vertex list, where Rust would panic) is modelled with
`List.getD` and the default vertex. -/
def circlePolygon (i_a : ℕ) (radius_a : ℝ) (body_a : Body) (i_b : ℕ)
    (orientation_b : Mat2) (vertices_b : List PolygonShapeVertex) (body_b : Body) :
    Option ManifoldData :=
  let pos_a := body_a.position
  let pos_b := body_b.position
  let center := orientation_b.transpose.mulVec (pos_a - pos_b)
  match sepLoop center radius_a vertices_b.enum f32MIN 0 with
  | none => none
  | some (separation, face_normal) =>
    let v1 := vertices_b.getD face_normal default
    let i2 := if face_normal + 1 < vertices_b.length then face_normal + 1 else 0
    let v2 := vertices_b.getD i2 default
    if separation < EPSILON then
      let normal := -(orientation_b.mulVec v1.normal)
      some ⟨(i_a, i_b), radius_a, normal, [radius_a • normal + pos_a]⟩
    else
      let dot1 := dot (center - v1.position) (v2.position - v1.position)
      let dot2 := dot (center - v2.position) (v1.position - v2.position)
      let penetration := radius_a - separation
      if dot1 ≤ 0 then
        if distSqr center v1.position > radius_a ^ 2 then none
        else
          let n0 := orientation_b.mulVec (v1.position - center)
          let n := if ¬ floatCmp (magnitude n0) 0 then n0.normalize else n0
          let v1p := orientation_b.mulVec v1.position + pos_b
          some ⟨(i_a, i_b), penetration, n, [v1p]⟩
      else if dot2 ≤ 0 then
        if distSqr center v2.position > radius_a ^ 2 then none
        else
          let n0 := orientation_b.mulVec (v2.position - center)
          let n := if ¬ floatCmp (magnitude n0) 0 then n0.normalize else n0
          let v2p := orientation_b.mulVec v2.position + pos_b
          some ⟨(i_a, i_b), penetration, n, [v2p]⟩
      else
        let n1 := v1.normal
        if dot (center - v1.position) n1 > radius_a then none
        else
          let n := -(orientation_b.mulVec n1)
          some ⟨(i_a, i_b), penetration, n, [radius_a • n + pos_a]⟩

/-! ## Scene and solver (scene.rs) -/

structure Scene where
  delta : ℝ
  iterations : ℕ
  bodies : List Body

/-- `Scene::new` (scene.rs): empty scene with 10 solver iterations. -/
def Scene.new : Scene := ⟨0, 10, []⟩

/-- `Scene::add` (scene.rs). -/
def Scene.add (s : Scene) (b : Body) : Scene := { s with bodies := s.bodies ++ [b] }

/-- The index pairs visited by `Scene::generate_contact_list` (scene.rs):
`i` over all indices, `j` over `i+1 .. n-1`. -/
def pairsUpTo (n : ℕ) : List (ℕ × ℕ) :=
  (List.range n).flatMap (fun i => (List.range' (i + 1) (n - (i + 1))).map (fun j => (i, j)))

/-- The shape dispatch of one body pair in `Scene::generate_contact_list`
(scene.rs).  The outer `none` models the `unimplemented!()` panic on a
polygon-polygon pair; `some o` is the narrow-phase result. -/
def pairTest (i j : ℕ) (a b : Body) : Option (Option ManifoldData) :=
  match a.shape, b.shape with
  | Shape.circle r1, Shape.circle r2 => some (circleCircle i r1 a j r2 b)
  | Shape.circle r, Shape.polygon o vs => some (circlePolygon i r a j o vs b)
  | Shape.polygon o vs, Shape.circle r => some (circlePolygon j r b i o vs a)
  | Shape.polygon _ _, Shape.polygon _ _ => none

/-- The pair loop of `Scene::generate_contact_list` (scene.rs); `none` models
a panic. -/
def genLoop (bodies : List Body) : List (ℕ × ℕ) → Option (List ManifoldData)
  | [] => some []
  | (i, j) :: rest =>
    let a := bodies.getD i default
    let b := bodies.getD j default
    if a.inv_mass = 0 ∧ b.inv_mass = 0 then genLoop bodies rest
    else
      match pairTest i j a b with
      | none => none
      | some none => genLoop bodies rest
      | some (some md) => (genLoop bodies rest).map (fun l => md :: l)

/-- `Scene::generate_contact_list` (scene.rs). -/
def generateContactList (bodies : List Body) : Option (List ManifoldData) :=
  genLoop bodies (pairsUpTo bodies.length)

/-- The assertions of `Scene::get_two_mut` (scene.rs): distinct, in-range
indices.  Violating them is a fatal programming error in the Rust code. -/
def getTwoMutPre (bodies : List Body) (i_a i_b : ℕ) : Prop :=
  i_a ≠ i_b ∧ i_a < bodies.length ∧ i_b < bodies.length

/-- The tangent (friction) part of one contact iteration in
`Scene::apply_impulse` (scene.rs), computed from the relative velocity after
the normal impulse: `none` models the early `return` when `jt` is nearly
zero; otherwise the clamped tangent impulse vector.  `frictionClamp` is the
final guard-and-clamp of that block (scene.rs lines 228-236). -/
def frictionClamp (m : Manifold) (j : ℝ) (t : Vec2) (jt : ℝ) : Option Vec2 :=
  if floatCmp jt 0 then none
  else if |jt| < j * m.sf then some (jt • t)
  else some ((-j * m.df) • t)

def tangentImpulse (m : Manifold) (rv : Vec2) (inv_mass_sum j : ℝ) : Option Vec2 :=
  let t0 := rv - dot rv m.normal • m.normal
  let len_t := magnitude t0
  let t := if ¬ floatCmp len_t 0 then t0.normalize else t0
  let jt := -(dot rv t) / inv_mass_sum / (m.contacts.length : ℝ)
  frictionClamp m j t jt

/-- The contact loop of `Scene::apply_impulse` (scene.rs).  The Rust `return`
statements exit the whole function, which here stops the recursion and
yields the bodies accumulated so far. -/
def contactLoop (m : Manifold) : List Vec2 → Body → Body → Body × Body
  | [], a, b => (a, b)
  | contact :: rest, a, b =>
    let ra := contact - a.position
    let rb := contact - b.position
    let rv := b.velocity + crossRealVector b.angular_velocity rb -
      a.velocity - crossRealVector a.angular_velocity ra
    let contact_vel := dot rv m.normal
    if contact_vel > 0 then (a, b)
    else
      let ra_cross_n := crossVectors ra m.normal
      let rb_cross_n := crossVectors rb m.normal
      let inv_mass_sum := a.inv_mass + b.inv_mass +
        ra_cross_n ^ 2 * a.inv_inertia + rb_cross_n ^ 2 * b.inv_inertia
      let j := -(1 + m.e) * contact_vel / inv_mass_sum / (m.contacts.length : ℝ)
      let impulse := j • m.normal
      let a2 := a.applyImpulse (-impulse) ra
      let b2 := b.applyImpulse impulse rb
      let rv2 := b2.velocity + crossRealVector b2.angular_velocity rb -
        a2.velocity - crossRealVector a2.angular_velocity ra
      match tangentImpulse m rv2 inv_mass_sum j with
      | none => (a2, b2)
      | some tang =>
        let a3 := a2.applyImpulse (-tang) ra
        let b3 := b2.applyImpulse tang rb
        contactLoop m rest a3 b3

/-- `Scene::apply_impulse` (scene.rs), acting on the body list. -/
def sceneApplyImpulse (m : Manifold) (bodies : List Body) : List Body :=
  let i_a := m.pair.1
  let i_b := m.pair.2
  let a := bodies.getD i_a default
  let b := bodies.getD i_b default
  if floatCmp (a.inv_mass + b.inv_mass) 0 then
    (bodies.set i_a { a with velocity := ⟨0, 0⟩ }).set i_b { b with velocity := ⟨0, 0⟩ }
  else
    let p := contactLoop m m.contacts a b
    (bodies.set i_a p.1).set i_b p.2

/-- `Scene::positional_correct` (scene.rs). -/
def positionalCorrect (m : Manifold) (bodies : List Body) : List Body :=
  let a := bodies.getD m.pair.1 default
  let b := bodies.getD m.pair.2 default
  let k_slop : ℝ := 5 / 100
  let percent : ℝ := 2 / 5
  let correction := (max (m.penetration - k_slop) 0 / (a.inv_mass + b.inv_mass) * percent) • m.normal
  let a2 : Body := { a with position := a.position - a.inv_mass • correction }
  let b2 : Body := { b with position := b.position + b.inv_mass • correction }
  (bodies.set m.pair.1 a2).set m.pair.2 b2

/-- The per-tick force/torque reset in `Scene::step` (scene.rs). -/
def resetForce (b : Body) : Body := { b with force := ⟨0, 0⟩, torque := 0 }

/-- One pass of the impulse solver over all contacts (inner loop of the
iteration loop in `Scene::step`). -/
def solveIter (contacts : List Manifold) (bodies : List Body) : List Body :=
  contacts.foldl (fun bs c => sceneApplyImpulse c bs) bodies

/-- `for _ in 0..n { ... }`. -/
def iterateN {α : Type} : ℕ → (α → α) → α → α
  | 0, _, x => x
  | n + 1, f, x => iterateN n f (f x)

/-- `Scene::step` (scene.rs).  The contact list is generated first, from the
pre-integration bodies; `none` models the `unimplemented!()` panic on a
polygon-polygon pair. -/
def step (s : Scene) (delta : ℝ) : Option Scene :=
  match generateContactList s.bodies with
  | none => none
  | some contact_data =>
    let bodies1 := s.bodies.map (fun b => b.integrateForces delta)
    let contacts := contact_data.map
      (fun d => initManifold d delta (bodies1.getD d.pair.1 default) (bodies1.getD d.pair.2 default))
    let bodies2 := iterateN s.iterations (solveIter contacts) bodies1
    let bodies3 := bodies2.map (fun b => b.integrateVelocity delta)
    let bodies4 := contacts.foldl (fun bs c => positionalCorrect c bs) bodies3
    let bodies5 := bodies4.map resetForce
    some { s with bodies := bodies5 }

/-- A fully explicit base body (material defaults of `Body::with_density`,
zero kinematic state) used to build concrete test bodies. -/
def baseBody : Body :=
  ⟨Shape.circle 0, ⟨0, 0⟩, 0, ⟨0, 0⟩, 0, 0, ⟨0, 0⟩, 1/2, 3/10, 1/5, 0, 0, 0, 0⟩

/-- Concrete radius-5 circle body at a given position (dynamic, unit mass). -/
def circleBodyAt (p : Vec2) : Body :=
  { baseBody with shape := Shape.circle 5, position := p, mass := 1, inv_mass := 1 }

def circA : Body := circleBodyAt ⟨0, 0⟩

def circB : Body := circleBodyAt ⟨8, 0⟩

def circC : Body := circleBodyAt ⟨11, 0⟩

/-- Modelled from the spec: the per-tick pipeline in the spec's order, where
the half-step force integration happens before contact generation, followed
by manifold initialization with the post-half-integration velocities, the
impulse iterations, velocity integration, positional correction, and the
force/torque reset.  Every phase is the same code-derived definition used by
`step`; only the order of the first two phases follows the spec's words. -/
def specStep (s : Scene) (delta : ℝ) : Option Scene :=
  let bodies1 := s.bodies.map (fun b => b.integrateForces delta)
  match generateContactList bodies1 with
  | none => none
  | some contact_data =>
    let contacts := contact_data.map
      (fun d => initManifold d delta (bodies1.getD d.pair.1 default) (bodies1.getD d.pair.2 default))
    let bodies2 := iterateN s.iterations (solveIter contacts) bodies1
    let bodies3 := bodies2.map (fun b => b.integrateVelocity delta)
    let bodies4 := contacts.foldl (fun bs c => positionalCorrect c bs) bodies3
    let bodies5 := bodies4.map resetForce
    some { s with bodies := bodies5 }

/-! ## C1, C2: polygon mass computation -/

/-- The vertex list `Shape::rect(Vec2::new(1,1))` produces (a 2x2 square). -/
def squareVertices : List PolygonShapeVertex :=
  [ ⟨⟨-1, -1⟩, ⟨0, -1⟩⟩, ⟨⟨1, -1⟩, ⟨1, 0⟩⟩, ⟨⟨1, 1⟩, ⟨0, 1⟩⟩, ⟨⟨-1, 1⟩, ⟨-1, 0⟩⟩ ]

/-! ## C5: circle-circle narrow phase -/

/-- The manifold produced for the radius-5 circles at (0,0) and (8,0). -/
def mdcc : ManifoldData := ⟨(0, 1), 2, ⟨1, 0⟩, [⟨5, 0⟩]⟩

/-! ## C10: narrow-phase manifolds carry exactly one contact -/

/-- Radius-1 circle body just below the square, for the circle-polygon test. -/
def circD : Body :=
  { baseBody with shape := Shape.circle 1, position := ⟨0, -3/2⟩, mass := 1, inv_mass := 1 }

/-- Unit-mass body carrying the 2x2 square polygon at the origin. -/
def polyB : Body :=
  { baseBody with
    shape := Shape.polygon (mat2New 1 0 0 1) squareVertices
    position := ⟨0, 0⟩
    mass := 1
    inv_mass := 1 }

/-- The manifold produced for `circD` against the square `polyB`. -/
def mdcp : ManifoldData := ⟨(0, 1), 1/2, ⟨0, 1⟩, [⟨0, -1/2⟩]⟩

/-- Body A for the C4 counterexample: at rest at the origin. -/
def bodyA4 : Body := baseBody

/-- Body B for the C4 counterexample: at the origin, spinning with unit
angular velocity. -/
def bodyB4 : Body := { baseBody with angular_velocity := 1 }

/-- A two-contact manifold: the contact at the origin is resting, the one at
(100,0) sweeps at speed 100 and is not. -/
def md4 : ManifoldData := ⟨(0, 1), 0, ⟨1, 0⟩, [⟨0, 0⟩, ⟨100, 0⟩]⟩

/-- A concrete single-contact manifold with `e = 0`, `df = 3/10`,
`sf = 1/2` (the default coefficients), normal (1,0). -/
def m3 : Manifold := ⟨(0, 1), 1, ⟨1, 0⟩, [⟨1, 0⟩], 0, 3/10, 1/2⟩

/-- Body A for C3: unit-mass circle at the origin moving with velocity
(10, 4) toward body B. -/
def bodyA3 : Body :=
  { baseBody with shape := Shape.circle 1, velocity := ⟨10, 4⟩, mass := 1, inv_mass := 1 }

/-- Body B for C3: unit-mass circle at rest at (2,0). -/
def bodyB3 : Body :=
  { baseBody with shape := Shape.circle 1, position := ⟨2, 0⟩, mass := 1, inv_mass := 1 }

/-- A per-phase invariant: the phase keeps every static body's position and
orientation (and keeps it static). -/
def StaticPres (f : List Body → List Body) : Prop :=
  ∀ (bs : List Body) (k : ℕ) (b : Body), bs[k]? = some b → b.inv_mass = 0 → b.inv_inertia = 0 →
    ∃ b', (f bs)[k]? = some b' ∧ b'.position = b.position ∧ b'.orient = b.orient ∧
      b'.inv_mass = 0 ∧ b'.inv_inertia = 0

/-- A static circle body (zero mass/inertia terms) at (3,4), orientation 7. -/
def staticBody1 : Body :=
  { baseBody with shape := Shape.circle 5, position := ⟨3, 4⟩, orient := 7 }

/-- A scene holding only `staticBody1`, with the solver's 10 iterations. -/
def staticScene : Scene := ⟨0, 10, [staticBody1]⟩

@[simp] theorem Vec2.add_x (a b : Vec2) : (a + b).x = a.x + b.x := rfl

@[simp] theorem Vec2.add_y (a b : Vec2) : (a + b).y = a.y + b.y := rfl

@[simp] theorem Vec2.sub_x (a b : Vec2) : (a - b).x = a.x - b.x := rfl

@[simp] theorem Vec2.sub_y (a b : Vec2) : (a - b).y = a.y - b.y := rfl

@[simp] theorem Vec2.neg_x (a : Vec2) : (-a).x = -a.x := rfl

@[simp] theorem Vec2.neg_y (a : Vec2) : (-a).y = -a.y := rfl

@[simp] theorem Vec2.smul_x (r : ℝ) (v : Vec2) : (r • v).x = r * v.x := rfl

@[simp] theorem Vec2.smul_y (r : ℝ) (v : Vec2) : (r • v).y = r * v.y := rfl

@[ext] theorem Vec2.ext' {a b : Vec2} (hx : a.x = b.x) (hy : a.y = b.y) : a = b := by
  cases a; cases b; simp_all

/-! ## Computation lemmas -/

@[simp] theorem Vec2.mk_add_mk (x1 y1 x2 y2 : ℝ) :
    (⟨x1, y1⟩ + ⟨x2, y2⟩ : Vec2) = ⟨x1 + x2, y1 + y2⟩ := rfl

@[simp] theorem Vec2.mk_sub_mk (x1 y1 x2 y2 : ℝ) :
    (⟨x1, y1⟩ - ⟨x2, y2⟩ : Vec2) = ⟨x1 - x2, y1 - y2⟩ := rfl

@[simp] theorem Vec2.neg_mk (x y : ℝ) : (-(⟨x, y⟩ : Vec2)) = ⟨-x, -y⟩ := rfl

@[simp] theorem Vec2.smul_mk (r x y : ℝ) : (r • (⟨x, y⟩ : Vec2)) = ⟨r * x, r * y⟩ := rfl

@[simp] theorem lenSqr_mk (x y : ℝ) : lenSqr ⟨x, y⟩ = x ^ 2 + y ^ 2 := rfl

@[simp] theorem dot_mk (x1 y1 x2 y2 : ℝ) : dot ⟨x1, y1⟩ ⟨x2, y2⟩ = x1 * x2 + y1 * y2 := rfl

@[simp] theorem crossVectors_mk (x1 y1 x2 y2 : ℝ) :
    crossVectors ⟨x1, y1⟩ ⟨x2, y2⟩ = x1 * y2 - y1 * x2 := rfl

@[simp] theorem crossRealVector_mk (a x y : ℝ) :
    crossRealVector a ⟨x, y⟩ = ⟨-a * y, a * x⟩ := rfl

theorem sqrt64 : Real.sqrt 64 = 8 := by
  rw [show (64 : ℝ) = 8 ^ 2 by norm_num, Real.sqrt_sq (by norm_num : (0 : ℝ) ≤ 8)]

theorem magnitude_mk (x y : ℝ) : magnitude ⟨x, y⟩ = Real.sqrt (x * x + y * y) := rfl

/-! ## C8: circle mass properties -/

/-- C8: for every circle of strictly positive radius and strictly positive
density, `compute_mass` yields mass `π·r²·density` and moment of inertia
`mass·r²`, both strictly positive, with `inv_mass = 1/mass` and
`inv_inertia = 1/inertia`. -/
theorem C8_circle_mass (r d : ℝ) (hr : 0 < r) (hd : 0 < d) :
    (computeMass (Shape.circle r) d).1.mass = PI * r ^ 2 * d ∧
    (computeMass (Shape.circle r) d).1.moment_inertia =
      (computeMass (Shape.circle r) d).1.mass * r ^ 2 ∧
    0 < (computeMass (Shape.circle r) d).1.mass ∧
    0 < (computeMass (Shape.circle r) d).1.moment_inertia ∧
    (computeMass (Shape.circle r) d).1.inv_mass = 1 / (computeMass (Shape.circle r) d).1.mass ∧
    (computeMass (Shape.circle r) d).1.inv_inertia =
      1 / (computeMass (Shape.circle r) d).1.moment_inertia := by
  have hmass : (computeMass (Shape.circle r) d).1.mass = PI * r * r * d := rfl
  have hin : (computeMass (Shape.circle r) d).1.moment_inertia = PI * r * r * d * r * r := rfl
  have hpos : 0 < PI * r * r * d := by
    have := Real.pi_pos
    simp only [PI]
    positivity
  have hipos : 0 < PI * r * r * d * r * r := by positivity
  refine ⟨by rw [hmass]; ring, by rw [hmass, hin]; ring, by rw [hmass]; exact hpos,
    by rw [hin]; exact hipos, ?_, ?_⟩
  · have : (computeMass (Shape.circle r) d).1.inv_mass =
        if PI * r * r * d ≠ 0 then 1 / (PI * r * r * d) else 0 := rfl
    rw [this, if_pos (ne_of_gt hpos), hmass]
  · have : (computeMass (Shape.circle r) d).1.inv_inertia =
        if PI * r * r * d * r * r ≠ 0 then 1 / (PI * r * r * d * r * r) else 0 := rfl
    rw [this, if_pos (ne_of_gt hipos), hin]

/-- Witness for C8 at radius 1, density 1. -/
theorem C8_witness :
    (0 : ℝ) < 1 ∧
    ((computeMass (Shape.circle 1) 1).1.mass = PI * 1 ^ 2 * 1 ∧
    (computeMass (Shape.circle 1) 1).1.moment_inertia =
      (computeMass (Shape.circle 1) 1).1.mass * 1 ^ 2 ∧
    0 < (computeMass (Shape.circle 1) 1).1.mass ∧
    0 < (computeMass (Shape.circle 1) 1).1.moment_inertia ∧
    (computeMass (Shape.circle 1) 1).1.inv_mass = 1 / (computeMass (Shape.circle 1) 1).1.mass ∧
    (computeMass (Shape.circle 1) 1).1.inv_inertia =
      1 / (computeMass (Shape.circle 1) 1).1.moment_inertia) :=
  ⟨by norm_num, C8_circle_mass 1 1 (by norm_num) (by norm_num)⟩

theorem rect_one_eq : Shape.rect ⟨1, 1⟩ = Shape.polygon (mat2New 1 0 0 1) squareVertices := by
  simp [Shape.rect, squareVertices]

/-- C1 (code bug evaluation): on the 2x2 square of density 1 the code's
accumulated signed area is 2 and its accumulated second-moment integral is
4/3, yet `compute_mass` stores 4/3 (density times the second moment) in the
`mass` field and 2 (density times the area) in the `moment_inertia` field —
the two assignments are swapped relative to the claim. -/
theorem C1_mass_inertia_swapped :
    (computeMass (Shape.rect ⟨1, 1⟩) 1).1.mass = 4 / 3 ∧
    (computeMass (Shape.rect ⟨1, 1⟩) 1).1.moment_inertia = 2 ∧
    (polyAcc (chunks2 [(⟨-1, -1⟩ : Vec2), ⟨1, -1⟩, ⟨1, 1⟩, ⟨-1, 1⟩])).area = 2 ∧
    (polyAcc (chunks2 [(⟨-1, -1⟩ : Vec2), ⟨1, -1⟩, ⟨1, 1⟩, ⟨-1, 1⟩])).i = 4 / 3 := by
  rw [rect_one_eq]
  refine ⟨?_, ?_, ?_, ?_⟩ <;>
    norm_num [computeMass, squareVertices, polyAcc, polyAccStep, chunks2]

/-- C2 (code bug evaluation): the polygon loop iterates `chunks(2)`, so on
the square only the disjoint pairs `(v0,v1)` and `(v2,v3)` are processed —
vertices are not paired with their successors and there is no wrap-around
pair — and the accumulated signed area comes out as 2 instead of the 4 that
the successor-pair fan decomposition would give for this square. -/
theorem C2_chunked_pairs :
    chunks2 [(⟨-1, -1⟩ : Vec2), ⟨1, -1⟩, ⟨1, 1⟩, ⟨-1, 1⟩] =
      [((⟨-1, -1⟩ : Vec2), (⟨1, -1⟩ : Vec2)), ((⟨1, 1⟩ : Vec2), (⟨-1, 1⟩ : Vec2))] ∧
    (polyAcc (chunks2 [(⟨-1, -1⟩ : Vec2), ⟨1, -1⟩, ⟨1, 1⟩, ⟨-1, 1⟩])).area = 2 := by
  refine ⟨by simp [chunks2], ?_⟩
  norm_num [polyAcc, polyAccStep, chunks2]

/-- Definitional closed form of `circleCircle`. -/
theorem circleCircle_eq (i_a i_b : ℕ) (ra rb : ℝ) (A B : Body) :
    circleCircle i_a ra A i_b rb B =
      if lenSqr (B.position - A.position) ≥ (ra + rb) ^ 2 then none
      else if Real.sqrt (lenSqr (B.position - A.position)) = 0 then
        some ⟨(i_a, i_b), ra, ⟨1, 0⟩, [A.position]⟩
      else
        some ⟨(i_a, i_b), (ra + rb) - Real.sqrt (lenSqr (B.position - A.position)),
          (1 / Real.sqrt (lenSqr (B.position - A.position))) • (B.position - A.position),
          [ra • ((1 / Real.sqrt (lenSqr (B.position - A.position))) • (B.position - A.position)) +
            A.position]⟩ := rfl

theorem circleCircle_concrete : circleCircle 0 5 circA 1 5 circB = some mdcc := by
  rw [circleCircle_eq]
  rw [show circB.position - circA.position = ⟨8, 0⟩ by simp [circA, circB, circleBodyAt]]
  rw [show lenSqr (⟨8, 0⟩ : Vec2) = 64 by norm_num]
  rw [if_neg (by norm_num), if_neg (by rw [sqrt64]; norm_num)]
  norm_num [mdcc, sqrt64, ManifoldData.mk.injEq, Vec2.mk.injEq, circA, circleBodyAt]

theorem circleCircle_none : circleCircle 0 5 circA 1 5 circC = none := by
  rw [circleCircle_eq]
  rw [show circC.position - circA.position = ⟨11, 0⟩ by simp [circA, circC, circleBodyAt]]
  rw [if_pos (by norm_num)]

/-- C5: `circle_circle` returns a contact exactly when the squared distance
between the centers is strictly below the squared radius sum; on exactly
coincident centers it yields normal (1,0), penetration `radius_a` and the
contact at body A's position; otherwise normal is the center delta over the
distance, penetration is the radius sum minus the distance, and the single
contact is `position_a + normal * radius_a`; in particular radius-5 circles
at (0,0) and (8,0) give penetration 2 and normal (1,0), and at (0,0) and
(11,0) give no contact. -/
theorem C5_circle_circle :
    (∀ (i_a i_b : ℕ) (ra rb : ℝ) (A B : Body),
      ((circleCircle i_a ra A i_b rb B).isSome ↔
        lenSqr (B.position - A.position) < (ra + rb) ^ 2) ∧
      (lenSqr (B.position - A.position) < (ra + rb) ^ 2 →
        (Real.sqrt (lenSqr (B.position - A.position)) = 0 →
          circleCircle i_a ra A i_b rb B = some ⟨(i_a, i_b), ra, ⟨1, 0⟩, [A.position]⟩) ∧
        (Real.sqrt (lenSqr (B.position - A.position)) ≠ 0 →
          circleCircle i_a ra A i_b rb B = some ⟨(i_a, i_b),
            (ra + rb) - Real.sqrt (lenSqr (B.position - A.position)),
            (1 / Real.sqrt (lenSqr (B.position - A.position))) • (B.position - A.position),
            [ra • ((1 / Real.sqrt (lenSqr (B.position - A.position))) • (B.position - A.position)) +
              A.position]⟩))) ∧
    circleCircle 0 5 circA 1 5 circB = some ⟨(0, 1), 2, ⟨1, 0⟩, [⟨5, 0⟩]⟩ ∧
    circleCircle 0 5 circA 1 5 circC = none := by
  refine ⟨?_, circleCircle_concrete, circleCircle_none⟩
  intro i_a i_b ra rb A B
  constructor
  · rw [circleCircle_eq]
    split_ifs with h1 h2 <;> simp_all [not_le, le_of_not_lt]
  · intro hlt
    constructor
    · intro h0
      rw [circleCircle_eq, if_neg (by simpa [not_le] using hlt), if_pos h0]
    · intro h0
      rw [circleCircle_eq, if_neg (by simpa [not_le] using hlt), if_neg h0]

/-- Witness for C5: the non-degenerate branch instantiated at the two
radius-5 circles centered at (0,0) and (8,0). -/
theorem C5_witness :
    circleCircle 0 5 circA 1 5 circB = some ⟨(0, 1),
      (5 + 5) - Real.sqrt (lenSqr (circB.position - circA.position)),
      (1 / Real.sqrt (lenSqr (circB.position - circA.position))) • (circB.position - circA.position),
      [(5 : ℝ) • ((1 / Real.sqrt (lenSqr (circB.position - circA.position))) •
        (circB.position - circA.position)) + circA.position]⟩ :=
  ((C5_circle_circle.1 0 1 5 5 circA circB).2
    (by norm_num [circA, circB, circleBodyAt])).2
    (by
      rw [show circB.position - circA.position = ⟨8, 0⟩ by simp [circA, circB, circleBodyAt]]
      rw [show lenSqr (⟨8, 0⟩ : Vec2) = 64 by norm_num]
      rw [sqrt64]
      norm_num)

theorem circlePolygon_concrete :
    circlePolygon 0 1 circD 1 (mat2New 1 0 0 1) squareVertices polyB = some mdcp := by
  norm_num [circlePolygon, sepLoop, squareVertices, List.enum, List.enumFrom, f32MIN,
    EPSILON, Mat2.transpose, Mat2.mulVec, mat2New, distSqr, circD, polyB, mdcp,
    ManifoldData.mk.injEq, Vec2.mk.injEq, floatCmp, magnitude]

/-- C10: every manifold returned by `circle_circle` or `circle_polygon`
contains exactly one contact point, so the impulse division by the contact
count is always a division by one. -/
theorem C10_single_contact :
    (∀ (i_a i_b : ℕ) (ra rb : ℝ) (A B : Body) (md : ManifoldData),
      circleCircle i_a ra A i_b rb B = some md → md.contacts.length = 1) ∧
    (∀ (i_a i_b : ℕ) (ra : ℝ) (A : Body) (o : Mat2) (vs : List PolygonShapeVertex)
      (B : Body) (md : ManifoldData),
      circlePolygon i_a ra A i_b o vs B = some md → md.contacts.length = 1) := by
  constructor
  · intro i_a i_b ra rb A B md h
    rw [circleCircle_eq] at h
    split_ifs at h
    all_goals
      first
        | exact Option.noConfusion h
        | (injection h with h2; subst h2; rfl)
  · intro i_a i_b ra A o vs B md h
    simp only [circlePolygon] at h
    split at h
    · exact Option.noConfusion h
    · split_ifs at h
      all_goals
        first
          | exact Option.noConfusion h
          | (injection h with h2; subst h2; rfl)

/-- Witness for C10 at the concrete circle-circle and circle-polygon
contacts computed above. -/
theorem C10_witness : mdcc.contacts.length = 1 ∧ mdcp.contacts.length = 1 :=
  ⟨C10_single_contact.1 0 1 5 5 circA circB mdcc circleCircle_concrete,
   C10_single_contact.2 0 1 1 circD (mat2New 1 0 0 1) squareVertices polyB mdcp
     circlePolygon_concrete⟩

/-! ## C4: combined restitution -/

open scoped Classical

/-- The restitution fold of `ManifoldData::initialize`: the result is zero
exactly when some contact is resting (or the initial value is kept). -/
theorem restitution_fold (delta : ℝ) (a b : Body) (l : List Vec2) (e0 : ℝ) :
    l.foldl (fun e c => if restingContact delta a b c then 0 else e) e0 =
      if ∃ c ∈ l, restingContact delta a b c then 0 else e0 := by
  induction l generalizing e0 with
  | nil => simp
  | cons c cs ih =>
    simp only [List.foldl_cons]
    by_cases hc : restingContact delta a b c
    · rw [if_pos hc, ih]
      simp [hc]
    · rw [if_neg hc, ih]
      simp [hc]

/-- C4 counterexample: for `md4` not every contact is resting, both bodies
have restitution 1/5, and yet `initialize` forces `e` to zero — so zero
restitution is not forced exactly when every contact is resting. -/
theorem C4_counterexample :
    (initManifold md4 FRAME_TIME bodyA4 bodyB4).e = 0 ∧
    ¬ (∀ c ∈ md4.contacts, restingContact FRAME_TIME bodyA4 bodyB4 c) ∧
    min bodyA4.restitution bodyB4.restitution = 1 / 5 := by
  have h1 : restingContact FRAME_TIME bodyA4 bodyB4 ⟨0, 0⟩ := by
    norm_num [restingContact, relVelAt, GRAVITY, EPSILON, FRAME_TIME,
      bodyA4, bodyB4, baseBody]
  have h2 : ¬ restingContact FRAME_TIME bodyA4 bodyB4 ⟨100, 0⟩ := by
    norm_num [restingContact, relVelAt, GRAVITY, EPSILON, FRAME_TIME,
      bodyA4, bodyB4, baseBody]
  refine ⟨?_, ?_, by norm_num [bodyA4, bodyB4, baseBody]⟩
  · rw [show (initManifold md4 FRAME_TIME bodyA4 bodyB4).e =
        md4.contacts.foldl
          (fun e c => if restingContact FRAME_TIME bodyA4 bodyB4 c then 0 else e)
          (min bodyA4.restitution bodyB4.restitution) from rfl,
      restitution_fold]
    rw [if_pos ⟨⟨0, 0⟩, by simp [md4], h1⟩]
  · intro hall
    exact h2 (hall ⟨100, 0⟩ (by simp [md4]))

/-- C4 amended: `initialize` sets the combined restitution to the minimum of
the two bodies' coefficients, forced to zero exactly when SOME contact
point's relative velocity is within epsilon of the resting threshold
derived from gravity times the tick length. -/
theorem C4_restitution_zero_iff (md : ManifoldData) (delta : ℝ) (a b : Body) :
    (initManifold md delta a b).e =
      if ∃ c ∈ md.contacts, restingContact delta a b c then 0
      else min a.restitution b.restitution := by
  rw [show (initManifold md delta a b).e =
      md.contacts.foldl
        (fun e c => if restingContact delta a b c then 0 else e)
        (min a.restitution b.restitution) from rfl]
  exact restitution_fold delta a b md.contacts _

/-! ## C3: friction clamp -/

theorem dot_self_eq (v : Vec2) : dot v v = lenSqr v := by
  simp [dot, lenSqr]; ring

theorem magnitude_smul (c : ℝ) (v : Vec2) : magnitude (c • v) = |c| * magnitude v := by
  unfold magnitude
  rw [show dot (c • v) (c • v) = c ^ 2 * dot v v by simp [dot]; ring]
  rw [Real.sqrt_mul (sq_nonneg c), Real.sqrt_sq_eq_abs]

theorem magnitude_nonneg (v : Vec2) : 0 ≤ magnitude v := Real.sqrt_nonneg _

theorem magnitude_normalize {v : Vec2} (h : magnitude v ≠ 0) :
    magnitude v.normalize = 1 := by
  have hpos : 0 < magnitude v := lt_of_le_of_ne (magnitude_nonneg v) (Ne.symm h)
  unfold Vec2.normalize
  rw [magnitude_smul, abs_of_pos (by positivity), one_div, inv_mul_cancel₀ h]

/-- C3 amended: whenever the clamping logic of the sequential-impulse update
emits a tangent impulse (normal impulse magnitude `j ≥ 0`, nonnegative
friction coefficients), its magnitude is at most
`max staticFriction dynamicFriction * j`; the bound `dynamicFriction * j`
claimed by the spec holds only in the else-branch of the clamp. -/
theorem C3_tangent_clamp_bound (m : Manifold) (rv : Vec2) (ims j : ℝ) (v : Vec2)
    (hj : 0 ≤ j) (hsf : 0 ≤ m.sf) (hdf : 0 ≤ m.df)
    (h : tangentImpulse m rv ims j = some v) :
    magnitude v ≤ j * max m.sf m.df := by
  have key : ∀ (t : Vec2) (jt : ℝ), magnitude t ≤ 1 →
      frictionClamp m j t jt = some v →
      magnitude v ≤ j * max m.sf m.df := by
    intro t jt ht hh
    unfold frictionClamp at hh
    split_ifs at hh with h1 h2
    · injection hh with hv
      subst hv
      rw [magnitude_smul]
      calc |jt| * magnitude t ≤ |jt| * 1 :=
            mul_le_mul_of_nonneg_left ht (abs_nonneg _)
        _ = |jt| := mul_one _
        _ ≤ j * m.sf := le_of_lt h2
        _ ≤ j * max m.sf m.df := mul_le_mul_of_nonneg_left (le_max_left _ _) hj
    · injection hh with hv
      subst hv
      rw [magnitude_smul]
      have habs : |(-j * m.df)| = j * m.df := by
        rw [abs_mul, abs_neg, abs_of_nonneg hj, abs_of_nonneg hdf]
      calc |(-j * m.df)| * magnitude t ≤ |(-j * m.df)| * 1 :=
            mul_le_mul_of_nonneg_left ht (abs_nonneg _)
        _ = j * m.df := by rw [mul_one, habs]
        _ ≤ j * max m.sf m.df := mul_le_mul_of_nonneg_left (le_max_right _ _) hj
  simp only [tangentImpulse] at h
  refine key _ _ ?_ h
  split_ifs with hn
  · simp only [floatCmp, sub_zero,
      abs_of_nonneg (magnitude_nonneg _)] at hn
    exact le_trans hn (by norm_num [EPSILON])
  · refine le_of_eq (magnitude_normalize ?_)
    intro h0
    refine hn ?_
    simp only [floatCmp, h0, sub_zero, abs_zero]
    norm_num [EPSILON]

theorem sqrt16 : Real.sqrt 16 = 4 := by
  rw [show (16 : ℝ) = 4 ^ 2 by norm_num, Real.sqrt_sq (by norm_num : (0 : ℝ) ≤ 4)]

theorem sqrt4 : Real.sqrt 4 = 2 := by
  rw [show (4 : ℝ) = 2 ^ 2 by norm_num, Real.sqrt_sq (by norm_num : (0 : ℝ) ≤ 2)]

/-- With normal impulse `j = 5` and post-normal-impulse relative velocity
(0,-4) the clamp takes its first branch (`|jt| = 2 < j*sf = 5/2`) and emits
the tangent impulse (0,2). -/
theorem tangentImpulse_concrete : tangentImpulse m3 ⟨0, -4⟩ 2 5 = some ⟨0, 2⟩ := by
  norm_num [tangentImpulse, frictionClamp, m3, Vec2.normalize, magnitude_mk, sqrt16,
    floatCmp, EPSILON, Vec2.mk.injEq]

/-- C3 counterexample: a reachable sequential-impulse update (unit-mass
circles, normal impulse j = 5) applies the tangent impulse (0,2), whose
magnitude 2 exceeds dynamicFriction * j = 3/2; the full contact iteration on
the two bodies confirms the update runs and imparts exactly this impulse. -/
theorem C3_counterexample :
    tangentImpulse m3 ⟨0, -4⟩ 2 5 = some ⟨0, 2⟩ ∧
    m3.df * 5 < magnitude ⟨0, 2⟩ ∧
    contactLoop m3 [⟨1, 0⟩] bodyA3 bodyB3 =
      ({ bodyA3 with velocity := ⟨5, 2⟩ }, { bodyB3 with velocity := ⟨5, 2⟩ }) := by
  refine ⟨tangentImpulse_concrete, ?_, ?_⟩
  · rw [show magnitude ⟨0, 2⟩ = 2 by rw [magnitude_mk]; norm_num [sqrt4]]
    norm_num [m3]
  · have hn : m3.normal = ⟨1, 0⟩ := rfl
    have he : m3.e = 0 := rfl
    have hc : m3.contacts = [⟨1, 0⟩] := rfl
    norm_num [contactLoop, hn, he, hc, bodyA3, bodyB3, baseBody, Body.applyImpulse,
      tangentImpulse_concrete, Prod.ext_iff, Body.mk.injEq, Vec2.mk.injEq]

/-- Witness for the C3 bound at the concrete clamp application. -/
theorem C3_witness :
    (0 : ℝ) ≤ 5 ∧ (0 : ℝ) ≤ m3.sf ∧ (0 : ℝ) ≤ m3.df ∧
    magnitude ⟨0, 2⟩ ≤ 5 * max m3.sf m3.df :=
  ⟨by norm_num, by norm_num [m3], by norm_num [m3],
   C3_tangent_clamp_bound m3 ⟨0, -4⟩ 2 5 ⟨0, 2⟩ (by norm_num) (by norm_num [m3])
     (by norm_num [m3]) tangentImpulse_concrete⟩

/-! ## C9: generated manifolds carry distinct in-range indices -/

theorem circleCircle_pair {i_a i_b : ℕ} {ra rb : ℝ} {A B : Body} {md : ManifoldData}
    (h : circleCircle i_a ra A i_b rb B = some md) : md.pair = (i_a, i_b) := by
  rw [circleCircle_eq] at h
  split_ifs at h
  all_goals
    first
      | exact Option.noConfusion h
      | (injection h with h2; subst h2; rfl)

theorem circlePolygon_pair {i_a i_b : ℕ} {ra : ℝ} {A : Body} {o : Mat2}
    {vs : List PolygonShapeVertex} {B : Body} {md : ManifoldData}
    (h : circlePolygon i_a ra A i_b o vs B = some md) : md.pair = (i_a, i_b) := by
  simp only [circlePolygon] at h
  split at h
  · exact Option.noConfusion h
  · split_ifs at h
    all_goals
      first
        | exact Option.noConfusion h
        | (injection h with h2; subst h2; rfl)

theorem pairTest_pair {i j : ℕ} {a b : Body} {md : ManifoldData}
    (h : pairTest i j a b = some (some md)) : md.pair = (i, j) ∨ md.pair = (j, i) := by
  unfold pairTest at h
  split at h
  · injection h with h2
    exact Or.inl (circleCircle_pair h2)
  · injection h with h2
    exact Or.inl (circlePolygon_pair h2)
  · injection h with h2
    exact Or.inr (circlePolygon_pair h2)
  · exact Option.noConfusion h

theorem pairsUpTo_mem {n i j : ℕ} (h : (i, j) ∈ pairsUpTo n) : i < j ∧ j < n := by
  simp only [pairsUpTo, List.mem_flatMap, List.mem_map, List.mem_range,
    List.mem_range'_1, Prod.mk.injEq] at h
  obtain ⟨a, ha, b, ⟨hb1, hb2⟩, hai, hbj⟩ := h
  subst hai
  subst hbj
  omega

theorem genLoop_pairs (bodies : List Body) (pairs : List (ℕ × ℕ))
    (hp : ∀ p ∈ pairs, p.1 < p.2 ∧ p.2 < bodies.length) (l : List ManifoldData)
    (h : genLoop bodies pairs = some l) :
    ∀ md ∈ l, getTwoMutPre bodies md.pair.1 md.pair.2 := by
  induction pairs generalizing l with
  | nil =>
    simp only [genLoop, Option.some.injEq] at h
    subst h
    intro md hmd
    exact absurd hmd (List.not_mem_nil md)
  | cons p rest ih =>
    obtain ⟨i, j⟩ := p
    have hij := hp (i, j) (List.mem_cons_self _ _)
    have hrest : ∀ q ∈ rest, q.1 < q.2 ∧ q.2 < bodies.length :=
      fun q hq => hp q (List.mem_cons_of_mem _ hq)
    simp only [genLoop] at h
    split_ifs at h with hstat
    · exact ih hrest l h
    · split at h
      · exact Option.noConfusion h
      · exact ih hrest l h
      · rename_i md' heq
        rcases hg : genLoop bodies rest with _ | l'
        · rw [hg] at h; exact Option.noConfusion h
        · rw [hg] at h
          simp only [Option.map_some', Option.some.injEq] at h
          subst h
          intro md hmd
          rcases List.mem_cons.mp hmd with hmd1 | hmd2
          · subst hmd1
            rcases pairTest_pair heq with hpair | hpair <;> rw [hpair] <;>
              exact ⟨by omega, by simp; omega, by simp; omega⟩
          · exact ih hrest l' hg md hmd2

/-- C9: every manifold produced by the contact-generation pass carries a
pair of distinct body indices within the bounds of the body list, i.e. the
assertion preconditions of the solver's two-body split access hold. -/
theorem C9_manifold_indices (bodies : List Body) (l : List ManifoldData) (md : ManifoldData)
    (hgen : generateContactList bodies = some l) (hmd : md ∈ l) :
    getTwoMutPre bodies md.pair.1 md.pair.2 := by
  unfold generateContactList at hgen
  refine genLoop_pairs bodies (pairsUpTo bodies.length) ?_ l hgen md hmd
  intro p hp
  obtain ⟨i, j⟩ := p
  exact pairsUpTo_mem hp

theorem generateContactList_concrete :
    generateContactList [circA, circB] = some [mdcc] := by
  have hsA : circA.shape = Shape.circle 5 := rfl
  have hsB : circB.shape = Shape.circle 5 := rfl
  have hmA : circA.inv_mass = 1 := rfl
  have hmB : circB.inv_mass = 1 := rfl
  rw [generateContactList, show ([circA, circB] : List Body).length = 2 from rfl,
    show pairsUpTo 2 = [(0, 1)] from rfl]
  simp only [genLoop, List.getD_cons_zero, List.getD_cons_succ, hmA, hmB]
  rw [if_neg (by norm_num)]
  simp only [pairTest, hsA, hsB, circleCircle_concrete, Option.map_some']

/-- Witness for C9 at the two overlapping radius-5 circles. -/
theorem C9_witness :
    generateContactList [circA, circB] = some [mdcc] ∧
    getTwoMutPre [circA, circB] mdcc.pair.1 mdcc.pair.2 :=
  ⟨generateContactList_concrete,
   C9_manifold_indices [circA, circB] [mdcc] mdcc generateContactList_concrete
     (List.mem_singleton.mpr rfl)⟩

/-! ## C7: the code's step equals the spec-ordered pipeline -/

theorem integrateForces_position (b : Body) (delta : ℝ) :
    (b.integrateForces delta).position = b.position := by
  unfold Body.integrateForces; split_ifs <;> rfl

theorem integrateForces_orient (b : Body) (delta : ℝ) :
    (b.integrateForces delta).orient = b.orient := by
  unfold Body.integrateForces; split_ifs <;> rfl

theorem integrateForces_shape (b : Body) (delta : ℝ) :
    (b.integrateForces delta).shape = b.shape := by
  unfold Body.integrateForces; split_ifs <;> rfl

theorem integrateForces_inv_mass (b : Body) (delta : ℝ) :
    (b.integrateForces delta).inv_mass = b.inv_mass := by
  unfold Body.integrateForces; split_ifs <;> rfl

theorem integrateForces_inv_inertia (b : Body) (delta : ℝ) :
    (b.integrateForces delta).inv_inertia = b.inv_inertia := by
  unfold Body.integrateForces; split_ifs <;> rfl

theorem integrateForces_default (delta : ℝ) :
    (default : Body).integrateForces delta = default := by
  unfold Body.integrateForces
  rw [if_pos (show (default : Body).inv_mass = 0 from rfl)]

theorem getD_map_body (f : Body → Body) (hf : f default = default)
    (bodies : List Body) (i : ℕ) :
    (bodies.map f).getD i default = f (bodies.getD i default) := by
  induction bodies generalizing i with
  | nil => simp [hf]
  | cons b bs ih =>
    cases i with
    | zero => simp
    | succ n => simpa using ih n

theorem circleCircle_congr {A A' B B' : Body} (hA : A'.position = A.position)
    (hB : B'.position = B.position) (i_a i_b : ℕ) (ra rb : ℝ) :
    circleCircle i_a ra A' i_b rb B' = circleCircle i_a ra A i_b rb B := by
  rw [circleCircle_eq, circleCircle_eq, hA, hB]

theorem circlePolygon_congr {A A' B B' : Body} (hA : A'.position = A.position)
    (hB : B'.position = B.position) (i_a i_b : ℕ) (ra : ℝ) (o : Mat2)
    (vs : List PolygonShapeVertex) :
    circlePolygon i_a ra A' i_b o vs B' = circlePolygon i_a ra A i_b o vs B := by
  unfold circlePolygon
  rw [hA, hB]

theorem pairTest_congr {a a' b b' : Body} (hsa : a'.shape = a.shape)
    (hsb : b'.shape = b.shape) (hpa : a'.position = a.position)
    (hpb : b'.position = b.position) (i j : ℕ) :
    pairTest i j a' b' = pairTest i j a b := by
  unfold pairTest
  rw [hsa, hsb]
  cases h1 : a.shape <;> cases h2 : b.shape
  · exact congrArg some (circleCircle_congr hpa hpb i j _ _)
  · exact congrArg some (circlePolygon_congr hpa hpb i j _ _ _)
  · exact congrArg some (circlePolygon_congr hpb hpa j i _ _ _)
  · rfl

theorem genLoop_map_integrate (bodies : List Body) (delta : ℝ) (pairs : List (ℕ × ℕ)) :
    genLoop (bodies.map (fun b => b.integrateForces delta)) pairs = genLoop bodies pairs := by
  induction pairs with
  | nil => rfl
  | cons p rest ih =>
    obtain ⟨i, j⟩ := p
    simp only [genLoop]
    rw [getD_map_body _ (integrateForces_default delta) bodies i,
      getD_map_body _ (integrateForces_default delta) bodies j,
      pairTest_congr (integrateForces_shape _ delta) (integrateForces_shape _ delta)
        (integrateForces_position _ delta) (integrateForces_position _ delta) i j]
    simp only [integrateForces_inv_mass, ih]

theorem generateContactList_integrate (bodies : List Body) (delta : ℝ) :
    generateContactList (bodies.map (fun b => b.integrateForces delta)) =
      generateContactList bodies := by
  unfold generateContactList
  rw [List.length_map]
  exact genLoop_map_integrate bodies delta _

/-- C7: `Scene::step` (which generates contacts from the pre-integration
bodies) produces exactly the same result as the spec-ordered pipeline in
which the half-step force integration runs before contact generation,
because contact generation depends only on positions, shapes and inverse
masses, which force integration does not change. -/
theorem C7_step_refines_spec (s : Scene) (delta : ℝ) : step s delta = specStep s delta := by
  simp only [step, specStep]
  rw [generateContactList_integrate s.bodies delta]

/-! ## C6: static bodies are never moved or rotated by `step` -/

@[simp] theorem Body.applyImpulse_position (b : Body) (i c : Vec2) :
    (b.applyImpulse i c).position = b.position := rfl

@[simp] theorem Body.applyImpulse_orient (b : Body) (i c : Vec2) :
    (b.applyImpulse i c).orient = b.orient := rfl

@[simp] theorem Body.applyImpulse_inv_mass (b : Body) (i c : Vec2) :
    (b.applyImpulse i c).inv_mass = b.inv_mass := rfl

@[simp] theorem Body.applyImpulse_inv_inertia (b : Body) (i c : Vec2) :
    (b.applyImpulse i c).inv_inertia = b.inv_inertia := rfl

theorem set_set_getElem? (bs : List Body) (i j k : ℕ) (x y : Body) :
    ((bs.set i x).set j y)[k]? =
      if j = k then (if j < bs.length then some y else none)
      else if i = k then (if i < bs.length then some x else none)
      else bs[k]? := by
  rw [List.getElem?_set, List.length_set, List.getElem?_set]

theorem staticPres_map (f : Body → Body)
    (hf : ∀ b, b.inv_mass = 0 → b.inv_inertia = 0 →
      (f b).position = b.position ∧ (f b).orient = b.orient ∧
      (f b).inv_mass = 0 ∧ (f b).inv_inertia = 0) :
    StaticPres (List.map f) := by
  intro bs k b hk hm hi
  exact ⟨f b, by rw [List.getElem?_map, hk, Option.map_some'],
    (hf b hm hi).1, (hf b hm hi).2.1, (hf b hm hi).2.2.1, (hf b hm hi).2.2.2⟩

theorem staticPres_foldl {α : Type} (g : α → List Body → List Body)
    (hg : ∀ c, StaticPres (g c)) (cs : List α) :
    StaticPres (fun bs => cs.foldl (fun x c => g c x) bs) := by
  induction cs with
  | nil => intro bs k b hk hm hi; exact ⟨b, hk, rfl, rfl, hm, hi⟩
  | cons c rest ih =>
    intro bs k b hk hm hi
    simp only [List.foldl_cons]
    obtain ⟨b1, h1, p1, o1, m1, i1⟩ := hg c bs k b hk hm hi
    obtain ⟨b2, h2, p2, o2, m2, i2⟩ := ih (g c bs) k b1 h1 m1 i1
    exact ⟨b2, h2, p2.trans p1, o2.trans o1, m2, i2⟩

theorem staticPres_iterateN (f : List Body → List Body) (hf : StaticPres f) (n : ℕ) :
    StaticPres (iterateN n f) := by
  induction n with
  | zero => intro bs k b hk hm hi; exact ⟨b, hk, rfl, rfl, hm, hi⟩
  | succ n ih =>
    intro bs k b hk hm hi
    simp only [iterateN]
    obtain ⟨b1, h1, p1, o1, m1, i1⟩ := hf bs k b hk hm hi
    obtain ⟨b2, h2, p2, o2, m2, i2⟩ := ih (f bs) k b1 h1 m1 i1
    exact ⟨b2, h2, p2.trans p1, o2.trans o1, m2, i2⟩

theorem contactLoop_kin (m : Manifold) (cs : List Vec2) (a b : Body) :
    ((contactLoop m cs a b).1.position = a.position ∧
     (contactLoop m cs a b).1.orient = a.orient ∧
     (contactLoop m cs a b).1.inv_mass = a.inv_mass ∧
     (contactLoop m cs a b).1.inv_inertia = a.inv_inertia) ∧
    ((contactLoop m cs a b).2.position = b.position ∧
     (contactLoop m cs a b).2.orient = b.orient ∧
     (contactLoop m cs a b).2.inv_mass = b.inv_mass ∧
     (contactLoop m cs a b).2.inv_inertia = b.inv_inertia) := by
  induction cs generalizing a b with
  | nil => simp [contactLoop]
  | cons c rest ih =>
    simp only [contactLoop]
    split_ifs
    · simp
    · split
      · simp
      · simp [ih]

theorem Vec2.add_zero_smul (v w : Vec2) : v + (0 : ℝ) • w = v := by
  ext <;> simp

theorem Vec2.sub_zero_smul (v w : Vec2) : v - (0 : ℝ) • w = v := by
  ext <;> simp

theorem getD_of_getElem? {bs : List Body} {k : ℕ} {b : Body} (hk : bs[k]? = some b) :
    bs.getD k default = b := by
  rw [List.getD_eq_getElem?_getD, hk]
  rfl

theorem staticPres_sceneApplyImpulse (m : Manifold) : StaticPres (sceneApplyImpulse m) := by
  intro bs k b hk hm hi
  have hlen : k < bs.length := by
    by_contra hge
    rw [List.getElem?_eq_none (le_of_not_lt hge)] at hk
    exact Option.noConfusion hk
  simp only [sceneApplyImpulse]
  split_ifs with hinf
  · rw [set_set_getElem?]
    split_ifs with h1 h2 h3 h4
    · subst h1
      exact ⟨_, rfl, by rw [getD_of_getElem? hk], by rw [getD_of_getElem? hk],
        by rw [getD_of_getElem? hk]; exact hm, by rw [getD_of_getElem? hk]; exact hi⟩
    · exact absurd (h1 ▸ hlen) h2
    · subst h3
      exact ⟨_, rfl, by rw [getD_of_getElem? hk], by rw [getD_of_getElem? hk],
        by rw [getD_of_getElem? hk]; exact hm, by rw [getD_of_getElem? hk]; exact hi⟩
    · exact absurd (h3 ▸ hlen) h4
    · exact ⟨b, hk, rfl, rfl, hm, hi⟩
  · rw [set_set_getElem?]
    split_ifs with h1 h2 h3 h4
    · subst h1
      refine ⟨_, rfl, ?_, ?_, ?_, ?_⟩
      · rw [(contactLoop_kin m m.contacts _ _).2.1, getD_of_getElem? hk]
      · rw [(contactLoop_kin m m.contacts _ _).2.2.1, getD_of_getElem? hk]
      · rw [(contactLoop_kin m m.contacts _ _).2.2.2.1, getD_of_getElem? hk]; exact hm
      · rw [(contactLoop_kin m m.contacts _ _).2.2.2.2, getD_of_getElem? hk]; exact hi
    · exact absurd (h1 ▸ hlen) h2
    · subst h3
      refine ⟨_, rfl, ?_, ?_, ?_, ?_⟩
      · rw [(contactLoop_kin m m.contacts _ _).1.1, getD_of_getElem? hk]
      · rw [(contactLoop_kin m m.contacts _ _).1.2.1, getD_of_getElem? hk]
      · rw [(contactLoop_kin m m.contacts _ _).1.2.2.1, getD_of_getElem? hk]; exact hm
      · rw [(contactLoop_kin m m.contacts _ _).1.2.2.2, getD_of_getElem? hk]; exact hi
    · exact absurd (h3 ▸ hlen) h4
    · exact ⟨b, hk, rfl, rfl, hm, hi⟩

theorem staticPres_positionalCorrect (m : Manifold) : StaticPres (positionalCorrect m) := by
  intro bs k b hk hm hi
  have hlen : k < bs.length := by
    by_contra hge
    rw [List.getElem?_eq_none (le_of_not_lt hge)] at hk
    exact Option.noConfusion hk
  simp only [positionalCorrect]
  rw [set_set_getElem?]
  split_ifs with h1 h2 h3 h4
  · subst h1
    refine ⟨_, rfl, ?_, ?_, ?_, ?_⟩
    · rw [getD_of_getElem? hk]
      show b.position + b.inv_mass • _ = b.position
      rw [hm, Vec2.add_zero_smul]
    · rw [getD_of_getElem? hk]
    · rw [getD_of_getElem? hk]; exact hm
    · rw [getD_of_getElem? hk]; exact hi
  · exact absurd (h1 ▸ hlen) h2
  · subst h3
    refine ⟨_, rfl, ?_, ?_, ?_, ?_⟩
    · rw [getD_of_getElem? hk]
      show b.position - b.inv_mass • _ = b.position
      rw [hm, Vec2.sub_zero_smul]
    · rw [getD_of_getElem? hk]
    · rw [getD_of_getElem? hk]; exact hm
    · rw [getD_of_getElem? hk]; exact hi
  · exact absurd (h3 ▸ hlen) h4
  · exact ⟨b, hk, rfl, rfl, hm, hi⟩

theorem integrateForces_static {b : Body} (delta : ℝ) (h : b.inv_mass = 0) :
    b.integrateForces delta = b := by
  unfold Body.integrateForces
  rw [if_pos h]

theorem integrateVelocity_static {b : Body} (delta : ℝ) (h : b.inv_mass = 0) :
    b.integrateVelocity delta = b := by
  unfold Body.integrateVelocity
  rw [if_pos h]

/-- C6: a body made static (`inv_mass = inv_inertia = 0`) keeps its position
and orientation across `Scene::step`, for any delta, any accumulated forces
or impulses, and any other bodies in the scene. -/
theorem C6_static_invariance (s : Scene) (delta : ℝ) (k : ℕ) (b : Body) (s' : Scene)
    (hb : s.bodies[k]? = some b) (hm : b.inv_mass = 0) (hi : b.inv_inertia = 0)
    (hstep : step s delta = some s') :
    ∃ b', s'.bodies[k]? = some b' ∧ b'.position = b.position ∧ b'.orient = b.orient := by
  simp only [step] at hstep
  rcases hgen : generateContactList s.bodies with _ | cd <;> rw [hgen] at hstep
  · exact Option.noConfusion hstep
  · injection hstep with hs'
    subst hs'
    have HF : StaticPres (List.map (fun x => Body.integrateForces x delta)) := by
      refine staticPres_map _ (fun c hcm hci => ?_)
      rw [integrateForces_static delta hcm]
      exact ⟨rfl, rfl, hcm, hci⟩
    have HV : StaticPres (List.map (fun x => Body.integrateVelocity x delta)) := by
      refine staticPres_map _ (fun c hcm hci => ?_)
      rw [integrateVelocity_static delta hcm]
      exact ⟨rfl, rfl, hcm, hci⟩
    have HR : StaticPres (List.map resetForce) := by
      refine staticPres_map _ (fun c hcm hci => ?_)
      exact ⟨rfl, rfl, hcm, hci⟩
    obtain ⟨b1, h1, p1, o1, m1, i1⟩ := HF s.bodies k b hb hm hi
    obtain ⟨b2, h2, p2, o2, m2, i2⟩ :=
      staticPres_iterateN _
        (staticPres_foldl sceneApplyImpulse (fun c => staticPres_sceneApplyImpulse c) _)
        s.iterations _ k b1 h1 m1 i1
    obtain ⟨b3, h3, p3, o3, m3, i3⟩ := HV _ k b2 h2 m2 i2
    obtain ⟨b4, h4, p4, o4, m4, i4⟩ :=
      staticPres_foldl positionalCorrect (fun c => staticPres_positionalCorrect c) _ _ k b3 h3 m3 i3
    obtain ⟨b5, h5, p5, o5, m5, i5⟩ := HR _ k b4 h4 m4 i4
    exact ⟨b5, h5, by rw [p5, p4, p3, p2, p1], by rw [o5, o4, o3, o2, o1]⟩

theorem step_staticScene : step staticScene 1 = some staticScene := by
  have hb : staticBody1.integrateForces 1 = staticBody1 := integrateForces_static 1 rfl
  have hv : staticBody1.integrateVelocity 1 = staticBody1 := integrateVelocity_static 1 rfl
  have hit : iterateN 10 (solveIter []) [staticBody1] = [staticBody1] := rfl
  simp only [step]
  rw [show generateContactList staticScene.bodies = some [] from rfl]
  simp only [show staticScene.bodies = [staticBody1] from rfl,
    show staticScene.iterations = 10 from rfl,
    List.map_nil, List.map_cons, hb, hv, List.foldl_nil, hit]
  rfl

/-- Witness for C6 on the one-body static scene. -/
theorem C6_witness :
    staticScene.bodies[0]? = some staticBody1 ∧ staticBody1.inv_mass = 0 ∧
    staticBody1.inv_inertia = 0 ∧ step staticScene 1 = some staticScene ∧
    (∃ b', staticScene.bodies[0]? = some b' ∧ b'.position = staticBody1.position ∧
      b'.orient = staticBody1.orient) :=
  ⟨rfl, rfl, rfl, step_staticScene,
   C6_static_invariance staticScene 1 0 staticBody1 staticScene rfl rfl rfl step_staticScene⟩
